import Mathlib

/-!
# GlobalEgressIP controller: allocation pass and reconciliation transform

A shallow embedding of `pkg/globalnet/controllers/ipam/global_egressip_controller.go`.

Modelling conventions.

* Go slices are lists. A nil slice and an empty slice are both `[]`, which is the
  identification made by `equality.Semantic.DeepEqual`, the only place where the
  source compares slices.
* The pool is an arbitrary state machine: a state type `σ` and a transition
  `Allocate : σ → String → AllocResult × σ`. Its implementation is not part of the
  controller file. Every sequence of answers is the behaviour of some such machine, so
  calls made by other workers between two calls of a pass are covered by the choice of the
  machine.
* The in-place mutation of `*status` and of the pool is explicit state passing. Every
  pass additionally returns the trace of the pool calls it issued (key and outcome of
  each call, in call order). The trace is ghost state: no branch reads it.
* A Go `*int` is either nil or an address together with the integer stored there. The
  address matters because the source hands the pointer itself to a `%d` verb.
* Go `int` is modelled by `Int`; the loop counter never exceeds the desired count, so no
  arithmetic can wrap.
* `make([]string, 0, cap)` goes through `makeslice`, which panics with
  `cap out of range` when `cap` is negative and when the size of `cap` entries overflows or
  exceeds the allocation limit. The largest capacity that is accepted is a property of the
  platform and is a parameter of the model, `maxSliceCap`; it is `2 ^ 44` entries of 16
  bytes on a 64-bit platform with 48-bit heap addresses such as linux/amd64.
* `klog` calls have no effect on the result and are left out.
-/

set_option linter.unusedVariables false

namespace Ipam

/-! ## Data model -/

/-- The `metav1.ConditionStatus` values. -/
inductive ConditionStatus where
  | ConditionTrue
  | ConditionFalse
  | ConditionUnknown
  deriving DecidableEq

/-- The `metav1.Condition` record. `LastTransitionTime` is an instant on an integer clock,
zero when unset. The field `Type` is spelled `Type_`, the former being reserved. -/
structure Condition where
  Type_ : String
  Status : ConditionStatus
  ObservedGeneration : Int
  LastTransitionTime : Nat
  Reason : String
  Message : String
  deriving DecidableEq

/-- Modelled from the spec: the `GlobalEgressIPStatus` type is declared in the API package,
which is not among the sources. The payload shape given by the spec is
`allocatedAddresses: []string, conditions: []Condition`; the field names are the ones the
controller dereferences. -/
structure GlobalEgressIPStatus where
  Conditions : List Condition
  AllocatedIPs : List String
  deriving DecidableEq

/-- A Go `*int` that is not nil: the address held by the pointer and the value stored there. -/
structure IntPtr where
  addr : Nat
  val : Int
  deriving DecidableEq

/-- Modelled from the spec: the `GlobalEgressIPSpec` type is declared in the API package.
`NumberOfIPs` is the optional desired count, `none` being the nil pointer. -/
structure GlobalEgressIPSpec where
  NumberOfIPs : Option IntPtr
  deriving DecidableEq

/-- The `GlobalEgressIP` resource: identity, spec and status. -/
structure GlobalEgressIP where
  Namespace : String
  Name : String
  Spec : GlobalEgressIPSpec
  Status : GlobalEgressIPStatus
  deriving DecidableEq

/-- The `syncer.Operation` kinds delivered to the transform. -/
inductive Operation where
  | Create
  | Update
  | Delete
  deriving DecidableEq

/-- Outcome of one `pool.Allocate(key)` call: `(ip, nil)` or `(_, err)`, the error being
represented by its text. -/
inductive AllocResult where
  | ok (ip : String)
  | err (e : String)
  deriving DecidableEq

/-- One entry of the trace of pool calls: the key passed and what the pool answered. -/
structure PoolCall where
  key : String
  result : AllocResult
  deriving DecidableEq

/-- Whether a traced call returned an error. -/
def PoolCall.failed (c : PoolCall) : Bool :=
  match c.result with
  | .ok _ => false
  | .err _ => true

/-- Runtime faults of the Go code. -/
inductive Fault where
  | makesliceCapOutOfRange
  deriving DecidableEq

/-- The collaborators the controller file calls but does not define.

* `Allocate` is the method of the pool.
* `TryAppendCondition` is `util.TryAppendCondition` of the admiral library; `none` is
  the nil slice the caller tests for. It is taken not to write into the elements of
  the slice it receives.
* `MetaNamespaceKeyFunc` is the key function of client-go (its error is discarded
  by the caller).
* `oneAddr` is the address at which the local variable `one` is allocated.
* `maxSliceCap` is the largest capacity for which `make([]string, 0, cap)` returns; it is
  at most the limit above which `makeslice` panics with `cap out of range`, and the loop
  never appends beyond the capacity. A slice of one entry can always be made. -/
structure Env (σ : Type) where
  Allocate : σ → String → AllocResult × σ
  TryAppendCondition : List Condition → Condition → Option (List Condition)
  MetaNamespaceKeyFunc : GlobalEgressIP → String
  oneAddr : Nat
  maxSliceCap : Nat
  one_le_maxSliceCap : 1 ≤ maxSliceCap

/-- Modelled from the spec: the constant `submarinerv1.GlobalEgressIPAllocated` is declared in
the API package; the spec names the condition type "Allocated". -/
def GlobalEgressIPAllocated : String := "Allocated"

/-! ## Formatting -/

/-- The verb `%d` of `fmt` applied to a Go `int`. -/
def fmtInt (n : Int) : String := toString n

/-- The verb `%d` of `fmt` applied to a pointer: the address, printed as an integer. -/
def fmtPtr (p : IntPtr) : String := toString p.addr

/-- `fmt.Sprintf("Error allocating %d global IP(s) from the pool: %v", numberOfIPs, err)`,
with `numberOfIPs` of type `*int`. -/
def allocationFailedMessage (numberOfIPs : IntPtr) (err : String) : String :=
  "Error allocating " ++ fmtPtr numberOfIPs ++ " global IP(s) from the pool: " ++ err

/-- `fmt.Sprintf("Allocated %d global IP(s)", numberOfIPs)`, with `numberOfIPs` of type `*int`. -/
def allocatedMessage (numberOfIPs : IntPtr) : String :=
  "Allocated " ++ fmtPtr numberOfIPs ++ " global IP(s)"

/-- The condition literal built when a pool call fails. -/
def allocationFailedCondition (numberOfIPs : IntPtr) (err : String) : Condition :=
  { Type_ := GlobalEgressIPAllocated
    Status := .ConditionFalse
    ObservedGeneration := 0
    LastTransitionTime := 0
    Reason := "IPPoolAllocationFailed"
    Message := allocationFailedMessage numberOfIPs err }

/-- The condition literal built after the loop completes. -/
def allocatedCondition (numberOfIPs : IntPtr) : Condition :=
  { Type_ := GlobalEgressIPAllocated
    Status := .ConditionTrue
    ObservedGeneration := 0
    LastTransitionTime := 0
    Reason := ""
    Message := allocatedMessage numberOfIPs }

/-! ## The controller -/

/-- The function `tryAppendStatusCondition`: the conditions are replaced unless the library
returns nil. -/
def tryAppendStatusCondition {σ : Type} (env : Env σ) (status : GlobalEgressIPStatus)
    (newCond : Condition) : GlobalEgressIPStatus :=
  match env.TryAppendCondition status.Conditions newCond with
  | none => status
  | some updatedConditions => { status with Conditions := updatedConditions }

/-- State threaded through the allocation loop. `failed` records that the loop body
executed `return true`. -/
structure LoopState (σ : Type) where
  failed : Bool
  status : GlobalEgressIPStatus
  pool : σ
  calls : List PoolCall

/-- The loop `for i := 0; i < *numberOfIPs; i++`, indexed by the number of iterations
still to run. A failed call records the failure condition and leaves the loop. -/
def allocateLoop {σ : Type} (env : Env σ) (key : String) (numberOfIPs : IntPtr) :
    Nat → GlobalEgressIPStatus → σ → List PoolCall → LoopState σ
  | 0, status, pool, calls => ⟨false, status, pool, calls⟩
  | n + 1, status, pool, calls =>
    match env.Allocate pool key with
    | (.err e, pool1) =>
      ⟨true, tryAppendStatusCondition env status (allocationFailedCondition numberOfIPs e),
        pool1, calls ++ [⟨key, .err e⟩]⟩
    | (.ok ip, pool1) =>
      allocateLoop env key numberOfIPs n
        { status with AllocatedIPs := status.AllocatedIPs ++ [ip] } pool1
        (calls ++ [⟨key, .ok ip⟩])

/-- What a pass of `allocateIPs` leaves behind: the returned flag, the status after the
in-place mutation, the pool state and the trace of the pool calls of this pass. -/
structure AllocOutcome (σ : Type) where
  requeue : Bool
  status : GlobalEgressIPStatus
  pool : σ
  calls : List PoolCall

/-- The nil default at the head of `allocateIPs`: a nil pointer is redirected to a fresh
variable holding 1. -/
def defaultNumberOfIPs {σ : Type} (env : Env σ) (numberOfIPs : Option IntPtr) : IntPtr :=
  match numberOfIPs with
  | none => ⟨env.oneAddr, 1⟩
  | some p => p

/-- The function `allocateIPs`. The second test is the fault of
`make([]string, 0, *numberOfIPs)` on a capacity that is negative or larger than the
platform accepts, reached only after the length comparison has failed. -/
def allocateIPs {σ : Type} (env : Env σ) (key : String) (numberOfIPs : Option IntPtr)
    (pool : σ) (status : GlobalEgressIPStatus) : Except Fault (AllocOutcome σ) :=
  let numberOfIPs := defaultNumberOfIPs env numberOfIPs
  if numberOfIPs.val = (status.AllocatedIPs.length : Int) then
    .ok ⟨false, status, pool, []⟩
  else if numberOfIPs.val < 0 ∨ (env.maxSliceCap : Int) < numberOfIPs.val then
    .error .makesliceCapOutOfRange
  else
    let st := allocateLoop env key numberOfIPs numberOfIPs.val.toNat
      { status with AllocatedIPs := [] } pool []
    if st.failed then
      .ok ⟨true, st.status, st.pool, st.calls⟩
    else
      .ok ⟨false, tryAppendStatusCondition env st.status (allocatedCondition numberOfIPs),
        st.pool, st.calls⟩

/-- The method `onCreate`. -/
def onCreate {σ : Type} (env : Env σ) (globalEgressIP : GlobalEgressIP) (pool : σ) :
    Except Fault (AllocOutcome σ) :=
  let key := env.MetaNamespaceKeyFunc globalEgressIP
  match allocateIPs env key globalEgressIP.Spec.NumberOfIPs pool globalEgressIP.Status with
  | .error f => .error f
  | .ok out => if out.requeue then .ok out else .ok { out with requeue := false }

/-- The function `checkGlobalEgressIPStatusChanged`; `none` is the nil object. -/
def checkGlobalEgressIPStatusChanged (oldStatus newStatus : GlobalEgressIPStatus)
    (retObj : GlobalEgressIP) : Option GlobalEgressIP :=
  if oldStatus = newStatus then none else some retObj

/-- What a call of `process` leaves behind: the returned pair, the request after the
in-place mutation, the pool state and the trace of the pool calls. -/
structure ProcessOutcome (σ : Type) where
  ret : Option GlobalEgressIP
  requeue : Bool
  obj : GlobalEgressIP
  pool : σ
  calls : List PoolCall

/-- The method `process`. -/
def process {σ : Type} (env : Env σ) (globalEgressIP : GlobalEgressIP) (numRequeues : Int)
    (op : Operation) (pool : σ) : Except Fault (ProcessOutcome σ) :=
  match op with
  | .Create =>
    let prevStatus := globalEgressIP.Status
    match onCreate env globalEgressIP pool with
    | .error f => .error f
    | .ok out =>
      let obj := { globalEgressIP with Status := out.status }
      .ok ⟨checkGlobalEgressIPStatusChanged prevStatus out.status obj, out.requeue, obj,
        out.pool, out.calls⟩
  | .Update => .ok ⟨none, false, globalEgressIP, pool, []⟩
  | .Delete => .ok ⟨none, false, globalEgressIP, pool, []⟩

/-! ## Vocabulary of the statements -/

/-- The effective desired count: the value of `*numberOfIPs` once `allocateIPs` has replaced
a nil pointer by a pointer to 1. -/
def effectiveCount (numberOfIPs : Option IntPtr) : Int :=
  match numberOfIPs with
  | none => 1
  | some p => p.val

/-- The trace entry of a successful call. -/
def okCall (key : String) (ip : String) : PoolCall := ⟨key, .ok ip⟩

/-- The pool answers `n` consecutive `Allocate(key)` calls without an error: the addresses
it returns, in call order, and the state it ends in; `none` if one of the calls fails. -/
def allocateN {σ : Type} (env : Env σ) (key : String) : Nat → σ → Option (List String × σ)
  | 0, pool => some ([], pool)
  | n + 1, pool =>
    match env.Allocate pool key with
    | (.err _, _) => none
    | (.ok ip, pool1) =>
      match allocateN env key n pool1 with
      | none => none
      | some (ips, pool2) => some (ip :: ips, pool2)

/-- The part of a pass on which two passes are compared: the returned flag, the pool calls,
the allocated addresses and the pool state; the conditions are left out. -/
def passSummary {σ : Type} (r : Except Fault (AllocOutcome σ)) :
    Except Fault (Bool × List PoolCall × List String × σ) :=
  match r with
  | .error f => .error f
  | .ok out => .ok (out.requeue, out.calls, out.status.AllocatedIPs, out.pool)

/-- Consecutive Create passes over one request: pass number `k` (from 0) is handed the
request and the pool left by pass `k - 1` and the requeue count `numRequeues k`; the value is
the outcome of pass number `k`. -/
def createPasses {σ : Type} (env : Env σ) (numRequeues : Nat → Int) :
    Nat → GlobalEgressIP → σ → Except Fault (ProcessOutcome σ)
  | 0, g, pool => process env g (numRequeues 0) .Create pool
  | k + 1, g, pool =>
    match createPasses env numRequeues k g pool with
    | .error f => .error f
    | .ok r => process env r.obj (numRequeues (k + 1)) .Create r.pool

/-- Some call of the trace returned an error. -/
def someCallFailed (calls : List PoolCall) : Prop := ∃ c ∈ calls, c.failed = true

instance (calls : List PoolCall) : Decidable (someCallFailed calls) := by
  unfold someCallFailed; infer_instance

/-- The text `t` occurs in the text `s`. -/
def containsText (s t : String) : Bool :=
  s.data.tails.any (fun suffix => t.data.isPrefixOf suffix)

/-! ## Example collaborators, used to evaluate the controller on concrete inputs -/

/-- Modelled from the spec: `util.TryAppendCondition` belongs to the admiral library and is
not among the sources. The spec describes the conditions as a per-type, latest-wins sequence
in which a condition of a given type is replaced, not duplicated, when it is appended again
with the same type. -/
def TryAppendCondition (conditions : List Condition) (newCondition : Condition) :
    Option (List Condition) :=
  if conditions.any (fun c => c.Type_ == newCondition.Type_) then
    some (conditions.map (fun c => if c.Type_ = newCondition.Type_ then newCondition else c))
  else
    some (conditions ++ [newCondition])

/-- Modelled from the spec: `cache.MetaNamespaceKeyFunc` belongs to client-go and is not among
the sources. The spec names the namespace-qualified name as the key. -/
def MetaNamespaceKeyFunc (obj : GlobalEgressIP) : String :=
  obj.Namespace ++ "/" ++ obj.Name

/-- A pool for worked examples: its state is the list of the addresses that are still free;
`Allocate` hands out the first one and fails once the list is empty. -/
def listPoolAllocate (free : List String) (key : String) : AllocResult × List String :=
  match free with
  | [] => (.err "insufficient IPs available for allocation", [])
  | ip :: rest => (.ok ip, rest)

/-- The environment of the worked examples, with the capacity limit of linux/amd64. -/
def exampleEnv : Env (List String) :=
  ⟨listPoolAllocate, TryAppendCondition, MetaNamespaceKeyFunc, 824633802896,
    17592186044416, by decide⟩

/-- A request with the given desired count and status. -/
def exampleRequest (numberOfIPs : Option IntPtr) (status : GlobalEgressIPStatus) :
    GlobalEgressIP :=
  ⟨"submariner", "east", ⟨numberOfIPs⟩, status⟩

/-- An environment whose pool has no state and answers every call with an error. -/
def exhaustedEnv : Env Unit :=
  ⟨fun p _ => (.err "insufficient IPs available for allocation", p), TryAppendCondition,
    MetaNamespaceKeyFunc, 824633802896, 17592186044416, by decide⟩

/-- The request of the worked failure: two addresses wanted, none held. -/
def failedPassRequest : GlobalEgressIP :=
  exampleRequest (some ⟨824633802896, 2⟩) ⟨[], []⟩

/-- What `process` leaves when `failedPassRequest` is created against a pool holding the
single address `169.254.1.1`. -/
def failedPassOutcome : ProcessOutcome (List String) :=
  ⟨some (exampleRequest (some ⟨824633802896, 2⟩)
      ⟨[allocationFailedCondition ⟨824633802896, 2⟩
          "insufficient IPs available for allocation"], ["169.254.1.1"]⟩),
    true,
    exampleRequest (some ⟨824633802896, 2⟩)
      ⟨[allocationFailedCondition ⟨824633802896, 2⟩
          "insufficient IPs available for allocation"], ["169.254.1.1"]⟩,
    [],
    [okCall "submariner/east" "169.254.1.1",
      ⟨"submariner/east", .err "insufficient IPs available for allocation"⟩]⟩

/-- What `allocateIPs` leaves when three addresses are requested, with an empty status, from
a pool holding the single address `169.254.1.1`. -/
def partialPassOutcome : AllocOutcome (List String) :=
  ⟨true,
    ⟨[allocationFailedCondition ⟨824633802896, 3⟩ "insufficient IPs available for allocation"],
      ["169.254.1.1"]⟩,
    [],
    [okCall "submariner/east" "169.254.1.1",
      ⟨"submariner/east", .err "insufficient IPs available for allocation"⟩]⟩

/-- The addresses returned by the successful calls of a trace, in call order. -/
def returnedIPs (calls : List PoolCall) : List String :=
  calls.filterMap (fun c =>
    match c.result with
    | .ok ip => some ip
    | .err _ => none)

/-- The conditions of type Allocated among `conditions`, in order. -/
def allocatedConditions (conditions : List Condition) : List Condition :=
  conditions.filter (fun c => decide (c.Type_ = GlobalEgressIPAllocated))

/-- The conditions of the other types among `conditions`, in order. -/
def otherConditions (conditions : List Condition) : List Condition :=
  conditions.filter (fun c => !decide (c.Type_ = GlobalEgressIPAllocated))

/-- What `allocateIPs` leaves when one address is requested from a pool holding
`169.254.1.1`, by a request whose previous pass failed and left its failure condition. -/
def retryPassOutcome : AllocOutcome (List String) :=
  ⟨false, ⟨[allocatedCondition ⟨824633802896, 1⟩], ["169.254.1.1"]⟩, [],
    [okCall "submariner/east" "169.254.1.1"]⟩

/-! ## Lemmas on the allocation loop -/

theorem tryAppendStatusCondition_AllocatedIPs {σ : Type} (env : Env σ)
    (status : GlobalEgressIPStatus) (c : Condition) :
    (tryAppendStatusCondition env status c).AllocatedIPs = status.AllocatedIPs := by
  unfold tryAppendStatusCondition
  split <;> rfl

theorem effectiveCount_eq {σ : Type} (env : Env σ) (numberOfIPs : Option IntPtr) :
    (defaultNumberOfIPs env numberOfIPs).val = effectiveCount numberOfIPs := by
  cases numberOfIPs <;> rfl

/-- Shape of the loop result: the addresses of the successful calls are appended in order;
either all `n` calls succeeded and nothing else changed, or the call after the last
success failed, it was the last call, and the failure condition was recorded. -/
theorem allocateLoop_spec {σ : Type} (env : Env σ) (key : String) (p : IntPtr) :
    ∀ (n : Nat) (status : GlobalEgressIPStatus) (pool : σ) (calls : List PoolCall),
    ∃ ips : List String,
      ((allocateLoop env key p n status pool calls).failed = false ∧ ips.length = n ∧
        (allocateLoop env key p n status pool calls).calls = calls ++ ips.map (okCall key) ∧
        (allocateLoop env key p n status pool calls).status =
          { status with AllocatedIPs := status.AllocatedIPs ++ ips } ∧
        allocateN env key n pool = some (ips, (allocateLoop env key p n status pool calls).pool))
      ∨
      ((allocateLoop env key p n status pool calls).failed = true ∧ ips.length < n ∧
        allocateN env key n pool = none ∧
        ∃ e : String,
          (allocateLoop env key p n status pool calls).calls =
            calls ++ ips.map (okCall key) ++ [⟨key, .err e⟩] ∧
          (allocateLoop env key p n status pool calls).status =
            tryAppendStatusCondition env
              { status with AllocatedIPs := status.AllocatedIPs ++ ips }
              (allocationFailedCondition p e)) := by
  intro n
  induction n with
  | zero =>
    intro status pool calls
    exact ⟨[], Or.inl (by simp [allocateLoop, allocateN])⟩
  | succ n ih =>
    intro status pool calls
    rcases hA : env.Allocate pool key with ⟨res, pool1⟩
    cases res with
    | err e =>
      refine ⟨[], Or.inr ?_⟩
      simp [allocateLoop, allocateN, hA]
    | ok ip =>
      obtain ⟨ips, h⟩ :=
        ih { status with AllocatedIPs := status.AllocatedIPs ++ [ip] } pool1
          (calls ++ [⟨key, .ok ip⟩])
      refine ⟨ip :: ips, ?_⟩
      rcases h with ⟨h1, h2, h3, h4, h5⟩ | ⟨h1, h2, h3, e, h4, h5⟩
      · left
        simp only [allocateLoop, allocateN, hA]
        refine ⟨h1, by simp [h2], ?_, ?_, ?_⟩
        · rw [h3]; simp [okCall]
        · rw [h4]; simp
        · rw [h5]
      · right
        simp only [allocateLoop, allocateN, hA]
        refine ⟨h1, by simp [h2], by rw [h3], e, ?_, ?_⟩
        · rw [h4]; simp [okCall]
        · rw [h5]; simp

/-! ## Lemmas on `allocateIPs` -/

theorem allocateIPs_satisfied {σ : Type} (env : Env σ) (key : String)
    (numberOfIPs : Option IntPtr) (pool : σ) (status : GlobalEgressIPStatus)
    (h : effectiveCount numberOfIPs = (status.AllocatedIPs.length : Int)) :
    allocateIPs env key numberOfIPs pool status = .ok ⟨false, status, pool, []⟩ := by
  unfold allocateIPs
  simp only [effectiveCount_eq, h, if_true]

theorem allocateIPs_negative {σ : Type} (env : Env σ) (key : String)
    (numberOfIPs : Option IntPtr) (pool : σ) (status : GlobalEgressIPStatus)
    (h : effectiveCount numberOfIPs < 0) :
    allocateIPs env key numberOfIPs pool status = .error .makesliceCapOutOfRange := by
  unfold allocateIPs
  have hne : effectiveCount numberOfIPs ≠ (status.AllocatedIPs.length : Int) := by omega
  simp only [effectiveCount_eq, hne, h, true_or, if_true, if_false]

/-- A pass that has work to do faults in `make` when the count exceeds the largest capacity
that is accepted. -/
theorem allocateIPs_too_large {σ : Type} (env : Env σ) (key : String)
    (numberOfIPs : Option IntPtr) (pool : σ) (status : GlobalEgressIPStatus)
    (hne : effectiveCount numberOfIPs ≠ (status.AllocatedIPs.length : Int))
    (h : (env.maxSliceCap : Int) < effectiveCount numberOfIPs) :
    allocateIPs env key numberOfIPs pool status = .error .makesliceCapOutOfRange := by
  unfold allocateIPs
  simp only [effectiveCount_eq, hne, h, or_true, if_true, if_false]

/-- A pass that has work to do and a count that `make` accepts returns; it either obtained
all the addresses and recorded the success condition, or stopped at the first failing call
with the addresses obtained so far and the failure condition. -/
theorem allocateIPs_run {σ : Type} (env : Env σ) (key : String)
    (numberOfIPs : Option IntPtr) (pool : σ) (status : GlobalEgressIPStatus)
    (hne : effectiveCount numberOfIPs ≠ (status.AllocatedIPs.length : Int))
    (h0 : 0 ≤ effectiveCount numberOfIPs)
    (hmax : effectiveCount numberOfIPs ≤ (env.maxSliceCap : Int)) :
    ∃ (out : AllocOutcome σ) (ips : List String),
      allocateIPs env key numberOfIPs pool status = .ok out ∧
      ((out.requeue = false ∧ (ips.length : Int) = effectiveCount numberOfIPs ∧
        out.calls = ips.map (okCall key) ∧
        out.status = tryAppendStatusCondition env { status with AllocatedIPs := ips }
          (allocatedCondition (defaultNumberOfIPs env numberOfIPs)) ∧
        allocateN env key (effectiveCount numberOfIPs).toNat pool = some (ips, out.pool))
      ∨
      (out.requeue = true ∧ (ips.length : Int) < effectiveCount numberOfIPs ∧
        allocateN env key (effectiveCount numberOfIPs).toNat pool = none ∧
        ∃ e : String,
          out.calls = ips.map (okCall key) ++ [⟨key, .err e⟩] ∧
          out.status = tryAppendStatusCondition env { status with AllocatedIPs := ips }
            (allocationFailedCondition (defaultNumberOfIPs env numberOfIPs) e))) := by
  have hlt : ¬ (effectiveCount numberOfIPs < 0 ∨
      (env.maxSliceCap : Int) < effectiveCount numberOfIPs) := by omega
  obtain ⟨ips, h⟩ := allocateLoop_spec env key (defaultNumberOfIPs env numberOfIPs)
    (effectiveCount numberOfIPs).toNat { status with AllocatedIPs := [] } pool []
  unfold allocateIPs
  simp only [effectiveCount_eq, hne, hlt, if_false]
  rcases h with ⟨h1, h2, h3, h4, h5⟩ | ⟨h1, h2, h3, e, h4, h5⟩
  · simp only [h1, Bool.false_eq_true, if_false]
    refine ⟨_, ips, rfl, Or.inl ⟨rfl, by omega, by simpa using h3, ?_, h5⟩⟩
    simp only [h4, List.nil_append]
  · simp only [h1, if_true]
    refine ⟨_, ips, rfl, Or.inr ⟨rfl, by omega, h3, e, by simpa using h4, ?_⟩⟩
    simp only [h5, List.nil_append]

theorem someCallFailed_map_okCall (key : String) (ips : List String) :
    ¬ someCallFailed (ips.map (okCall key)) := by
  rintro ⟨c, hc, hf⟩
  obtain ⟨ip, -, rfl⟩ := List.mem_map.mp hc
  simp [okCall, PoolCall.failed] at hf

theorem someCallFailed_append_err (key e : String) (calls : List PoolCall) :
    someCallFailed (calls ++ [⟨key, .err e⟩]) :=
  ⟨⟨key, .err e⟩, by simp, rfl⟩

/-- The flag returned by `allocateIPs` tells whether a pool call of the pass failed, and a
pass that returns false leaves as many addresses as the effective desired count. -/
theorem allocateIPs_requeue {σ : Type} (env : Env σ) (key : String)
    (numberOfIPs : Option IntPtr) (pool : σ) (status : GlobalEgressIPStatus)
    (out : AllocOutcome σ) (h : allocateIPs env key numberOfIPs pool status = .ok out) :
    (out.requeue = true ↔ someCallFailed out.calls) ∧
    (out.requeue = false →
      (out.status.AllocatedIPs.length : Int) = effectiveCount numberOfIPs) := by
  by_cases heq : effectiveCount numberOfIPs = (status.AllocatedIPs.length : Int)
  · rw [allocateIPs_satisfied env key numberOfIPs pool status heq] at h
    cases h
    refine ⟨?_, fun _ => heq.symm⟩
    simp [someCallFailed]
  · by_cases hneg : effectiveCount numberOfIPs < 0
    · rw [allocateIPs_negative env key numberOfIPs pool status hneg] at h
      cases h
    · by_cases hbig : (env.maxSliceCap : Int) < effectiveCount numberOfIPs
      · rw [allocateIPs_too_large env key numberOfIPs pool status heq hbig] at h
        cases h
      obtain ⟨out1, ips, hrun, hcase⟩ :=
        allocateIPs_run env key numberOfIPs pool status heq (by omega) (by omega)
      rw [hrun] at h
      cases h
      rcases hcase with ⟨h1, h2, h3, h4, -⟩ | ⟨h1, -, -, e, h3, -⟩
      · refine ⟨?_, fun _ => ?_⟩
        · rw [h1, h3]
          simp [someCallFailed_map_okCall]
        · rw [h4, tryAppendStatusCondition_AllocatedIPs]
          exact h2
      · refine ⟨?_, fun hf => ?_⟩
        · rw [h1, h3]
          simp [someCallFailed_append_err]
        · rw [h1] at hf
          cases hf

/-! ## Lemmas on `process` -/

/-- On Create the transform is the allocation pass followed by change detection against the
status the request had on entry. -/
theorem process_create {σ : Type} (env : Env σ) (g : GlobalEgressIP) (numRequeues : Int)
    (pool : σ) :
    process env g numRequeues .Create pool =
      match allocateIPs env (env.MetaNamespaceKeyFunc g) g.Spec.NumberOfIPs pool g.Status with
      | .error f => .error f
      | .ok out =>
        .ok ⟨checkGlobalEgressIPStatusChanged g.Status out.status { g with Status := out.status },
          out.requeue, { g with Status := out.status }, out.pool, out.calls⟩ := by
  unfold process onCreate
  dsimp only
  cases h : allocateIPs env (env.MetaNamespaceKeyFunc g) g.Spec.NumberOfIPs pool g.Status with
  | error f => rfl
  | ok out =>
    cases hr : out.requeue <;> simp [hr]

theorem process_create_ok {σ : Type} (env : Env σ) (g : GlobalEgressIP) (numRequeues : Int)
    (pool : σ) (r : ProcessOutcome σ) (h : process env g numRequeues .Create pool = .ok r) :
    ∃ out : AllocOutcome σ,
      allocateIPs env (env.MetaNamespaceKeyFunc g) g.Spec.NumberOfIPs pool g.Status = .ok out ∧
      r = ⟨checkGlobalEgressIPStatusChanged g.Status out.status { g with Status := out.status },
        out.requeue, { g with Status := out.status }, out.pool, out.calls⟩ := by
  rw [process_create] at h
  cases hA : allocateIPs env (env.MetaNamespaceKeyFunc g) g.Spec.NumberOfIPs pool g.Status with
  | error f => rw [hA] at h; cases h
  | ok out =>
    rw [hA] at h
    exact ⟨out, rfl, (Except.ok.inj h).symm⟩

/-- A request that already holds as many addresses as it wants is left alone. -/
theorem process_create_satisfied {σ : Type} (env : Env σ) (g : GlobalEgressIP)
    (numRequeues : Int) (pool : σ)
    (h : effectiveCount g.Spec.NumberOfIPs = (g.Status.AllocatedIPs.length : Int)) :
    process env g numRequeues .Create pool = .ok ⟨none, false, g, pool, []⟩ := by
  rw [process_create, allocateIPs_satisfied env _ _ pool g.Status h]
  simp [checkGlobalEgressIPStatusChanged]

/-- Every pass that returns is of one of three kinds: nothing to do; all calls succeeded;
the call after the addresses `ips` failed. -/
theorem allocateIPs_cases {σ : Type} (env : Env σ) (key : String)
    (numberOfIPs : Option IntPtr) (pool : σ) (status : GlobalEgressIPStatus)
    (out : AllocOutcome σ) (h : allocateIPs env key numberOfIPs pool status = .ok out) :
    (effectiveCount numberOfIPs = (status.AllocatedIPs.length : Int) ∧
      out = ⟨false, status, pool, []⟩)
    ∨
    (effectiveCount numberOfIPs ≠ (status.AllocatedIPs.length : Int) ∧
      ∃ ips : List String,
        out.requeue = false ∧ (ips.length : Int) = effectiveCount numberOfIPs ∧
        out.calls = ips.map (okCall key) ∧
        out.status = tryAppendStatusCondition env { status with AllocatedIPs := ips }
          (allocatedCondition (defaultNumberOfIPs env numberOfIPs)) ∧
        allocateN env key (effectiveCount numberOfIPs).toNat pool = some (ips, out.pool))
    ∨
    (effectiveCount numberOfIPs ≠ (status.AllocatedIPs.length : Int) ∧
      ∃ (ips : List String) (e : String),
        out.requeue = true ∧ (ips.length : Int) < effectiveCount numberOfIPs ∧
        out.calls = ips.map (okCall key) ++ [⟨key, .err e⟩] ∧
        out.status = tryAppendStatusCondition env { status with AllocatedIPs := ips }
          (allocationFailedCondition (defaultNumberOfIPs env numberOfIPs) e)) := by
  by_cases heq : effectiveCount numberOfIPs = (status.AllocatedIPs.length : Int)
  · rw [allocateIPs_satisfied env key numberOfIPs pool status heq] at h
    exact Or.inl ⟨heq, (Except.ok.inj h).symm⟩
  · by_cases hneg : effectiveCount numberOfIPs < 0
    · rw [allocateIPs_negative env key numberOfIPs pool status hneg] at h
      cases h
    · by_cases hbig : (env.maxSliceCap : Int) < effectiveCount numberOfIPs
      · rw [allocateIPs_too_large env key numberOfIPs pool status heq hbig] at h
        cases h
      obtain ⟨out1, ips, hrun, hcase⟩ :=
        allocateIPs_run env key numberOfIPs pool status heq (by omega) (by omega)
      rw [hrun] at h
      cases h
      rcases hcase with ⟨h1, h2, h3, h4, h5⟩ | ⟨h1, h2, -, e, h3, h4⟩
      · exact Or.inr (Or.inl ⟨heq, ips, h1, h2, h3, h4, h5⟩)
      · exact Or.inr (Or.inr ⟨heq, ips, e, h1, h2, h3, h4⟩)

/-- A pass returns whenever the effective desired count is a capacity that `make`
accepts. -/
theorem allocateIPs_total {σ : Type} (env : Env σ) (key : String)
    (numberOfIPs : Option IntPtr) (pool : σ) (status : GlobalEgressIPStatus)
    (h0 : 0 ≤ effectiveCount numberOfIPs)
    (hmax : effectiveCount numberOfIPs ≤ (env.maxSliceCap : Int)) :
    ∃ out, allocateIPs env key numberOfIPs pool status = .ok out := by
  by_cases heq : effectiveCount numberOfIPs = (status.AllocatedIPs.length : Int)
  · exact ⟨_, allocateIPs_satisfied env key numberOfIPs pool status heq⟩
  · obtain ⟨out, -, hrun, -⟩ := allocateIPs_run env key numberOfIPs pool status heq h0 hmax
    exact ⟨out, hrun⟩

/-- Against a pool that answers every call with an error, a Create pass for a request that
wants at least one address, no more than `make` accepts, and does not hold as many as it wants
asks for a requeue and leaves the request with the same spec and no address, hence in the same
situation. -/
theorem process_requeues_of_failing_pool {σ : Type} (env : Env σ)
    (hfail : ∀ (p : σ) (k : String), ∃ (e : String) (p1 : σ), env.Allocate p k = (.err e, p1))
    (g : GlobalEgressIP) (numRequeues : Int) (pool : σ)
    (h1 : 1 ≤ effectiveCount g.Spec.NumberOfIPs)
    (hmax : effectiveCount g.Spec.NumberOfIPs ≤ (env.maxSliceCap : Int))
    (hne : effectiveCount g.Spec.NumberOfIPs ≠ (g.Status.AllocatedIPs.length : Int)) :
    ∃ r : ProcessOutcome σ,
      process env g numRequeues .Create pool = .ok r ∧ r.requeue = true ∧
      r.obj.Spec = g.Spec ∧ r.obj.Status.AllocatedIPs = [] := by
  obtain ⟨e, p1, hA⟩ := hfail pool (env.MetaNamespaceKeyFunc g)
  obtain ⟨m, hm⟩ : ∃ m : Nat, (effectiveCount g.Spec.NumberOfIPs).toNat = m + 1 :=
    ⟨(effectiveCount g.Spec.NumberOfIPs).toNat - 1, by omega⟩
  have hneg : ¬ (effectiveCount g.Spec.NumberOfIPs < 0 ∨
      (env.maxSliceCap : Int) < effectiveCount g.Spec.NumberOfIPs) := by omega
  have hrun : allocateIPs env (env.MetaNamespaceKeyFunc g) g.Spec.NumberOfIPs pool g.Status =
      .ok ⟨true,
        tryAppendStatusCondition env { g.Status with AllocatedIPs := [] }
          (allocationFailedCondition (defaultNumberOfIPs env g.Spec.NumberOfIPs) e),
        p1, [⟨env.MetaNamespaceKeyFunc g, .err e⟩]⟩ := by
    unfold allocateIPs
    simp only [effectiveCount_eq, hne, hneg, if_false, hm, allocateLoop, hA, if_true,
      List.nil_append]
  rw [process_create, hrun]
  exact ⟨_, rfl, rfl, rfl, tryAppendStatusCondition_AllocatedIPs _ _ _⟩

/-- Against a pool that answers every call with an error, every one of the consecutive
Create passes of such a request asks for a requeue. -/
theorem createPasses_requeue_of_failing_pool {σ : Type} (env : Env σ)
    (hfail : ∀ (p : σ) (k : String), ∃ (e : String) (p1 : σ), env.Allocate p k = (.err e, p1))
    (g : GlobalEgressIP) (pool : σ)
    (h1 : 1 ≤ effectiveCount g.Spec.NumberOfIPs)
    (hmax : effectiveCount g.Spec.NumberOfIPs ≤ (env.maxSliceCap : Int))
    (hne : effectiveCount g.Spec.NumberOfIPs ≠ (g.Status.AllocatedIPs.length : Int))
    (numRequeues : Nat → Int) (k : Nat) :
    ∃ r : ProcessOutcome σ,
      createPasses env numRequeues k g pool = .ok r ∧ r.requeue = true ∧
      r.obj.Spec = g.Spec ∧ r.obj.Status.AllocatedIPs = [] := by
  induction k with
  | zero =>
    exact process_requeues_of_failing_pool env hfail g (numRequeues 0) pool h1 hmax hne
  | succ k ih =>
    obtain ⟨r, hr, -, hspec, hips⟩ := ih
    have h1r : 1 ≤ effectiveCount r.obj.Spec.NumberOfIPs := by rw [hspec]; exact h1
    have hmaxr : effectiveCount r.obj.Spec.NumberOfIPs ≤ (env.maxSliceCap : Int) := by
      rw [hspec]; exact hmax
    have hner : effectiveCount r.obj.Spec.NumberOfIPs ≠
        (r.obj.Status.AllocatedIPs.length : Int) := by
      rw [hips]
      simp only [List.length_nil, Nat.cast_zero]
      omega
    obtain ⟨r2, hr2, hq, hs2, hi2⟩ :=
      process_requeues_of_failing_pool env hfail r.obj (numRequeues (k + 1)) r.pool h1r hmaxr
        hner
    refine ⟨r2, ?_, hq, hs2.trans hspec, hi2⟩
    simp only [createPasses, hr]
    exact hr2

/-- A request whose count exceeds the largest capacity `make` accepts, and differs from the
number of addresses it holds, makes every one of its consecutive Create passes fault. -/
theorem createPasses_too_large {σ : Type} (env : Env σ) (g : GlobalEgressIP) (pool : σ)
    (hbig : (env.maxSliceCap : Int) < effectiveCount g.Spec.NumberOfIPs)
    (hne : effectiveCount g.Spec.NumberOfIPs ≠ (g.Status.AllocatedIPs.length : Int))
    (numRequeues : Nat → Int) (k : Nat) :
    createPasses env numRequeues k g pool = .error .makesliceCapOutOfRange := by
  induction k with
  | zero =>
    simp only [createPasses]
    rw [process_create, allocateIPs_too_large env _ _ pool g.Status hne hbig]
  | succ k ih =>
    simp only [createPasses, ih]

/-! ## Lemmas on the trace -/

theorem returnedIPs_map_okCall (key : String) (ips : List String) :
    returnedIPs (ips.map (okCall key)) = ips := by
  induction ips with
  | nil => rfl
  | cons ip ips ih =>
    unfold returnedIPs at *
    simp only [List.map_cons, List.filterMap_cons, okCall] at ih ⊢
    rw [ih]

theorem key_of_mem_map_okCall (key : String) (ips : List String) (c : PoolCall)
    (hc : c ∈ ips.map (okCall key)) : c.key = key ∧ c.failed = false := by
  obtain ⟨ip, -, rfl⟩ := List.mem_map.mp hc
  exact ⟨rfl, rfl⟩

/-- In a trace made of successful calls followed by one failing call, a failing call can
only be the last one. -/
theorem failed_call_is_last (key e : String) (ips : List String) (k : Nat) (c : PoolCall)
    (hk : (ips.map (okCall key) ++ [⟨key, .err e⟩])[k]? = some c)
    (hf : c.failed = true) : k = ips.length := by
  by_cases hlt : k < ips.length
  · rw [List.getElem?_append_left (by simpa using hlt)] at hk
    have hmem : c ∈ ips.map (okCall key) := List.getElem?_mem hk
    rw [(key_of_mem_map_okCall key ips c hmem).2] at hf
    cases hf
  · by_cases hgt : ips.length < k
    · have hnone : (ips.map (okCall key) ++ [⟨key, .err e⟩])[k]? = none := by
        apply List.getElem?_eq_none
        simp
        omega
      rw [hnone] at hk
      cases hk
    · omega

/-! ## Lemmas on the conditions -/

theorem allocatedConditions_replace (c : Condition) (hc : c.Type_ = GlobalEgressIPAllocated) :
    ∀ conditions : List Condition,
      allocatedConditions (conditions.map (fun x => if x.Type_ = c.Type_ then c else x)) =
        List.replicate (allocatedConditions conditions).length c ∧
      otherConditions (conditions.map (fun x => if x.Type_ = c.Type_ then c else x)) =
        otherConditions conditions := by
  intro conditions
  induction conditions with
  | nil => exact ⟨rfl, rfl⟩
  | cons x xs ih =>
    obtain ⟨ih1, ih2⟩ := ih
    unfold allocatedConditions otherConditions at *
    simp only [hc] at ih1 ih2 ⊢
    by_cases hx : x.Type_ = GlobalEgressIPAllocated
    · simp only [List.map_cons, hx, if_true, List.filter_cons, hc, decide_True, ih1, ih2,
        Bool.not_true, Bool.false_eq_true, if_false, List.length_cons, List.replicate_succ,
        and_self]
    · simp only [List.map_cons, hx, if_false, List.filter_cons, decide_False, ih1, ih2,
        Bool.not_false, if_true, Bool.false_eq_true, and_self]

theorem allocatedConditions_of_not_any (c : Condition) (hc : c.Type_ = GlobalEgressIPAllocated) :
    ∀ conditions : List Condition,
      conditions.any (fun x => x.Type_ == c.Type_) = false →
      allocatedConditions conditions = [] ∧ otherConditions conditions = conditions := by
  intro conditions
  induction conditions with
  | nil => exact fun _ => ⟨rfl, rfl⟩
  | cons x xs ih =>
    intro h
    simp only [List.any_cons, Bool.or_eq_false_iff, beq_eq_false_iff_ne, ne_eq] at h
    obtain ⟨ih1, ih2⟩ := ih h.2
    have hx : ¬ x.Type_ = GlobalEgressIPAllocated := hc ▸ h.1
    unfold allocatedConditions otherConditions at *
    simp only [List.filter_cons, hx, decide_False, Bool.false_eq_true, if_false, ih1,
      Bool.not_false, if_true, ih2, and_self]

theorem allocatedConditions_pos_of_any (c : Condition) (hc : c.Type_ = GlobalEgressIPAllocated) :
    ∀ conditions : List Condition,
      conditions.any (fun x => x.Type_ == c.Type_) = true →
      1 ≤ (allocatedConditions conditions).length := by
  intro conditions h
  obtain ⟨x, hx, hxt⟩ := List.any_eq_true.mp h
  have hmem : x ∈ allocatedConditions conditions := by
    unfold allocatedConditions
    simp only [List.mem_filter, decide_eq_true_eq]
    exact ⟨hx, hc ▸ (beq_iff_eq.mp hxt)⟩
  exact List.length_pos_of_mem hmem

/-- The spec-modelled `TryAppendCondition` on a condition of type Allocated: it never
returns nil, every condition of type Allocated becomes the new one, one is added only if
there was none, and the conditions of the other types are left as they were. -/
theorem TryAppendCondition_allocated (conditions : List Condition) (c : Condition)
    (hc : c.Type_ = GlobalEgressIPAllocated) :
    ∃ updated : List Condition,
      TryAppendCondition conditions c = some updated ∧
      allocatedConditions updated =
        List.replicate (max 1 (allocatedConditions conditions).length) c ∧
      otherConditions updated = otherConditions conditions ∧
      updated.length = conditions.length + (1 - (allocatedConditions conditions).length) := by
  unfold TryAppendCondition
  by_cases hany : conditions.any (fun x => x.Type_ == c.Type_) = true
  · have hpos := allocatedConditions_pos_of_any c hc conditions hany
    obtain ⟨h1, h2⟩ := allocatedConditions_replace c hc conditions
    refine ⟨_, by rw [if_pos hany], ?_, h2, ?_⟩
    · rw [h1, Nat.max_eq_right hpos]
    · rw [List.length_map]
      omega
  · have hfalse : conditions.any (fun x => x.Type_ == c.Type_) = false := by
      simpa using hany
    obtain ⟨h1, h2⟩ := allocatedConditions_of_not_any c hc conditions hfalse
    refine ⟨_, by rw [if_neg hany], ?_, ?_, ?_⟩
    · unfold allocatedConditions at *
      simp [List.filter_append, h1, hc]
    · unfold otherConditions at *
      simp [List.filter_append, h2, hc]
    · rw [h1]
      simp

/-- With the spec-modelled `TryAppendCondition`, submitting a condition of type Allocated to
a status holding at most one of them leaves exactly the new one. -/
theorem tryAppendStatusCondition_allocated {σ : Type} (env : Env σ)
    (henv : env.TryAppendCondition = TryAppendCondition) (status : GlobalEgressIPStatus)
    (c : Condition) (hc : c.Type_ = GlobalEgressIPAllocated)
    (hone : (allocatedConditions status.Conditions).length ≤ 1) :
    allocatedConditions (tryAppendStatusCondition env status c).Conditions = [c] ∧
    otherConditions (tryAppendStatusCondition env status c).Conditions =
      otherConditions status.Conditions ∧
    (tryAppendStatusCondition env status c).Conditions.length =
      status.Conditions.length + (1 - (allocatedConditions status.Conditions).length) := by
  obtain ⟨updated, h1, h2, h3, h4⟩ := TryAppendCondition_allocated status.Conditions c hc
  unfold tryAppendStatusCondition
  rw [henv, h1]
  refine ⟨?_, h3, h4⟩
  rw [h2, Nat.max_eq_left hone]
  rfl

/-! ## Claims -/

/-- C1 (exact count). For a desired count `N ≥ 1` that does not exceed the largest
capacity `make` accepts, and a status whose `AllocatedIPs` has another length, if the pool
answers `N` consecutive `Allocate(key)` calls with the addresses `ips`, then `allocateIPs`
returns `requeue = false`, issues exactly those `N` calls, all with `key`, and leaves
`AllocatedIPs = ips` whatever it held before: its length is `N`, and it has no duplicate when
`ips` has none. -/
theorem allocateIPs_exact_count {σ : Type} (env : Env σ) (key : String) (p : IntPtr)
    (pool pool1 : σ) (status : GlobalEgressIPStatus) (ips : List String)
    (hN : 1 ≤ p.val) (hmax : p.val ≤ (env.maxSliceCap : Int))
    (hlen : (status.AllocatedIPs.length : Int) ≠ p.val)
    (hpool : allocateN env key p.val.toNat pool = some (ips, pool1)) :
    allocateIPs env key (some p) pool status =
      .ok ⟨false,
        tryAppendStatusCondition env { status with AllocatedIPs := ips } (allocatedCondition p),
        pool1, ips.map (okCall key)⟩ ∧
    ((ips.map (okCall key)).length : Int) = p.val ∧
    (tryAppendStatusCondition env { status with AllocatedIPs := ips }
      (allocatedCondition p)).AllocatedIPs = ips ∧
    (ips.length : Int) = p.val ∧
    (ips.Nodup →
      (tryAppendStatusCondition env { status with AllocatedIPs := ips }
        (allocatedCondition p)).AllocatedIPs.Nodup) := by
  obtain ⟨out, ips1, hrun, hcase⟩ :=
    allocateIPs_run env key (some p) pool status (fun h => hlen h.symm)
      (by simp only [effectiveCount]; omega) hmax
  simp only [effectiveCount, defaultNumberOfIPs] at hcase
  rcases hcase with ⟨h1, h2, h3, h4, h5⟩ | ⟨-, -, h3, -⟩
  · rw [hpool] at h5
    obtain ⟨rfl, rfl⟩ := Prod.mk.inj (Option.some.inj h5)
    refine ⟨?_, by simpa using h2, tryAppendStatusCondition_AllocatedIPs _ _ _, h2, ?_⟩
    · rw [hrun, ← h1, ← h3, ← h4]
    · rw [tryAppendStatusCondition_AllocatedIPs]
      exact id
  · rw [hpool] at h3
    cases h3

/-- Witness for C1: two addresses requested from a pool holding two, over a stale list. -/
theorem allocateIPs_exact_count_witness :
    allocateIPs exampleEnv "submariner/east" (some ⟨824633802896, 2⟩)
        ["169.254.1.1", "169.254.1.2"] ⟨[], ["10.0.0.9"]⟩ =
      .ok ⟨false,
        tryAppendStatusCondition exampleEnv ⟨[], ["169.254.1.1", "169.254.1.2"]⟩
          (allocatedCondition ⟨824633802896, 2⟩),
        [], ["169.254.1.1", "169.254.1.2"].map (okCall "submariner/east")⟩ ∧
    ((["169.254.1.1", "169.254.1.2"].map (okCall "submariner/east")).length : Int) = 2 ∧
    (tryAppendStatusCondition exampleEnv ⟨[], ["169.254.1.1", "169.254.1.2"]⟩
      (allocatedCondition ⟨824633802896, 2⟩)).AllocatedIPs = ["169.254.1.1", "169.254.1.2"] ∧
    ((["169.254.1.1", "169.254.1.2"] : List String).length : Int) = 2 ∧
    ((["169.254.1.1", "169.254.1.2"] : List String).Nodup →
      (tryAppendStatusCondition exampleEnv ⟨[], ["169.254.1.1", "169.254.1.2"]⟩
        (allocatedCondition ⟨824633802896, 2⟩)).AllocatedIPs.Nodup) :=
  allocateIPs_exact_count exampleEnv "submariner/east" ⟨824633802896, 2⟩
    ["169.254.1.1", "169.254.1.2"] [] ⟨[], ["10.0.0.9"]⟩ ["169.254.1.1", "169.254.1.2"]
    (by decide) (by decide) (by decide) rfl

/-- C2 (idempotent no-op). When the effective desired count (1 when unset) equals the length
of `status.AllocatedIPs`, `process` with operation Create issues no pool call, leaves the
request (its `AllocatedIPs` and `Conditions` included) and the pool as they were, and returns
`(nil, false)`. -/
theorem process_create_noop {σ : Type} (env : Env σ) (g : GlobalEgressIP) (numRequeues : Int)
    (pool : σ)
    (h : effectiveCount g.Spec.NumberOfIPs = (g.Status.AllocatedIPs.length : Int)) :
    process env g numRequeues .Create pool = .ok ⟨none, false, g, pool, []⟩ := by
  exact process_create_satisfied env g numRequeues pool h

/-- Witness for C2: the request that exists on startup, one address wanted and one held. -/
theorem process_create_noop_witness :
    process exampleEnv (exampleRequest (some ⟨824633802896, 1⟩) ⟨[], ["169.254.1.1"]⟩) 0
        .Create ["169.254.1.2"] =
      .ok ⟨none, false, exampleRequest (some ⟨824633802896, 1⟩) ⟨[], ["169.254.1.1"]⟩,
        ["169.254.1.2"], []⟩ :=
  process_create_noop exampleEnv (exampleRequest (some ⟨824633802896, 1⟩) ⟨[], ["169.254.1.1"]⟩)
    0 ["169.254.1.2"] (by decide)

/-- C3 (allocate exactly once). If `process` with operation Create returns `requeue = false`,
then processing the resulting request again, against the resulting pool, issues no pool call,
leaves request and pool unchanged and returns `(nil, false)`. -/
theorem process_create_twice {σ : Type} (env : Env σ) (g : GlobalEgressIP)
    (numRequeues numRequeues2 : Int) (pool : σ) (r : ProcessOutcome σ)
    (h : process env g numRequeues .Create pool = .ok r) (hr : r.requeue = false) :
    process env r.obj numRequeues2 .Create r.pool = .ok ⟨none, false, r.obj, r.pool, []⟩ := by
  obtain ⟨out, hA, rfl⟩ := process_create_ok env g numRequeues pool r h
  apply process_create_satisfied
  exact ((allocateIPs_requeue env _ _ pool g.Status out hA).2 hr).symm

/-- Witness for C3: a request without a count is processed against a pool holding one
address, then processed again. -/
theorem process_create_twice_witness :
    process exampleEnv
        (exampleRequest none ⟨[allocatedCondition ⟨824633802896, 1⟩], ["169.254.1.1"]⟩) 1
        .Create [] =
      .ok ⟨none, false,
        exampleRequest none ⟨[allocatedCondition ⟨824633802896, 1⟩], ["169.254.1.1"]⟩, [], []⟩ :=
  process_create_twice exampleEnv (exampleRequest none ⟨[], []⟩) 0 1 ["169.254.1.1"]
    ⟨some (exampleRequest none ⟨[allocatedCondition ⟨824633802896, 1⟩], ["169.254.1.1"]⟩),
      false, exampleRequest none ⟨[allocatedCondition ⟨824633802896, 1⟩], ["169.254.1.1"]⟩,
      [], [okCall "submariner/east" "169.254.1.1"]⟩
    rfl rfl

/-- C4 (default count). With the count unset and no address allocated, if the first
`Allocate(key)` call succeeds with `ip`, then `allocateIPs` issues exactly that one call,
leaves `AllocatedIPs = [ip]` and returns `requeue = false`. In every situation a nil count
gives the same flag, pool calls, `AllocatedIPs` and pool state as an explicit count of 1,
at whatever address that count is stored. -/
theorem allocateIPs_default_count {σ : Type} (env : Env σ) (key : String) (pool : σ)
    (status : GlobalEgressIPStatus) :
    (∀ (ip : String) (pool1 : σ),
      status.AllocatedIPs = [] → env.Allocate pool key = (.ok ip, pool1) →
      allocateIPs env key none pool status =
        .ok ⟨false,
          tryAppendStatusCondition env { status with AllocatedIPs := [ip] }
            (allocatedCondition ⟨env.oneAddr, 1⟩),
          pool1, [⟨key, .ok ip⟩]⟩ ∧
      (tryAppendStatusCondition env { status with AllocatedIPs := [ip] }
        (allocatedCondition ⟨env.oneAddr, 1⟩)).AllocatedIPs = [ip]) ∧
    (∀ addr : Nat,
      passSummary (allocateIPs env key none pool status) =
        passSummary (allocateIPs env key (some ⟨addr, 1⟩) pool status)) := by
  have hcap : env.maxSliceCap ≠ 0 := by
    have := env.one_le_maxSliceCap
    omega
  refine ⟨fun ip pool1 hempty hfirst => ⟨?_, tryAppendStatusCondition_AllocatedIPs _ _ _⟩,
    fun addr => ?_⟩
  · simp [allocateIPs, defaultNumberOfIPs, hempty, allocateLoop, hfirst, hcap]
  · by_cases hlen : (1 : Int) = (status.AllocatedIPs.length : Int)
    · simp [allocateIPs, defaultNumberOfIPs, hlen, passSummary]
    · rcases hA : env.Allocate pool key with ⟨res, pool3⟩
      cases res <;>
        simp [allocateIPs, defaultNumberOfIPs, hlen, allocateLoop, hA, passSummary,
          tryAppendStatusCondition_AllocatedIPs, hcap]

/-- Witness for C4: a request without a count against a pool holding two addresses. -/
theorem allocateIPs_default_count_witness :
    allocateIPs exampleEnv "submariner/east" none ["169.254.1.1", "169.254.1.2"] ⟨[], []⟩ =
      .ok ⟨false,
        tryAppendStatusCondition exampleEnv ⟨[], ["169.254.1.1"]⟩
          (allocatedCondition ⟨exampleEnv.oneAddr, 1⟩),
        ["169.254.1.2"], [⟨"submariner/east", .ok "169.254.1.1"⟩]⟩ ∧
    (tryAppendStatusCondition exampleEnv ⟨[], ["169.254.1.1"]⟩
      (allocatedCondition ⟨exampleEnv.oneAddr, 1⟩)).AllocatedIPs = ["169.254.1.1"] :=
  (allocateIPs_default_count exampleEnv "submariner/east" ["169.254.1.1", "169.254.1.2"]
    ⟨[], []⟩).1 "169.254.1.1" ["169.254.1.2"] rfl rfl

/-- C5 (requeue signals failure). On Create, every flag that `process` returns is true exactly
when some pool call of the pass returned an error, and the same holds for every flag that
`allocateIPs` returns. So a failing call forces the flag to true, and a pass whose calls all
succeed, or which issues none, returns false. A flag is returned whenever the effective
desired count is a capacity that `make` accepts, that is between 0 and the capacity limit. -/
theorem requeue_iff_someCallFailed {σ : Type} (env : Env σ) (g : GlobalEgressIP)
    (numRequeues : Int) (key : String) (numberOfIPs : Option IntPtr) (pool : σ)
    (status : GlobalEgressIPStatus) :
    (∀ r, process env g numRequeues .Create pool = .ok r →
      (r.requeue = true ↔ someCallFailed r.calls)) ∧
    (∀ out, allocateIPs env key numberOfIPs pool status = .ok out →
      (out.requeue = true ↔ someCallFailed out.calls)) ∧
    (0 ≤ effectiveCount g.Spec.NumberOfIPs →
      effectiveCount g.Spec.NumberOfIPs ≤ (env.maxSliceCap : Int) →
      ∃ r, process env g numRequeues .Create pool = .ok r) ∧
    (0 ≤ effectiveCount numberOfIPs →
      effectiveCount numberOfIPs ≤ (env.maxSliceCap : Int) →
      ∃ out, allocateIPs env key numberOfIPs pool status = .ok out) := by
  refine ⟨fun r h => ?_, fun out h => ?_, fun h0 hmax => ?_,
    allocateIPs_total env key numberOfIPs pool status⟩
  rotate_left 2
  · obtain ⟨out, hout⟩ :=
      allocateIPs_total env (env.MetaNamespaceKeyFunc g) g.Spec.NumberOfIPs pool g.Status h0
        hmax
    rw [process_create, hout]
    exact ⟨_, rfl⟩
  · obtain ⟨out, hA, rfl⟩ := process_create_ok env g numRequeues pool r h
    exact (allocateIPs_requeue env _ _ pool g.Status out hA).1
  · exact (allocateIPs_requeue env key numberOfIPs pool status out h).1

/-- Witness for C5: two addresses requested from a pool holding one; the pass returns, its
second call fails and the flag is true. -/
theorem requeue_iff_someCallFailed_witness :
    (∃ r, process exampleEnv failedPassRequest 0 .Create ["169.254.1.1"] = .ok r) ∧
    (failedPassOutcome.requeue = true ↔ someCallFailed failedPassOutcome.calls) :=
  ⟨(requeue_iff_someCallFailed exampleEnv failedPassRequest 0 "submariner/east" none
      ["169.254.1.1"] ⟨[], []⟩).2.2.1 (by decide) (by decide),
    (requeue_iff_someCallFailed exampleEnv failedPassRequest 0 "submariner/east" none
      ["169.254.1.1"] ⟨[], []⟩).1 failedPassOutcome rfl⟩

/-- C6, counterexample. Two addresses are requested from a pool holding one: the second call
fails, and `process` returns the request itself, carrying the one address and the failure
condition, together with `requeue = true`; the returned object is not nil. -/
theorem process_failure_returns_object :
    process exampleEnv (exampleRequest (some ⟨824633802896, 2⟩) ⟨[], []⟩) 0 .Create
        ["169.254.1.1"] =
      .ok ⟨some (exampleRequest (some ⟨824633802896, 2⟩)
          ⟨[allocationFailedCondition ⟨824633802896, 2⟩
              "insufficient IPs available for allocation"], ["169.254.1.1"]⟩),
        true,
        exampleRequest (some ⟨824633802896, 2⟩)
          ⟨[allocationFailedCondition ⟨824633802896, 2⟩
              "insufficient IPs available for allocation"], ["169.254.1.1"]⟩,
        [],
        [okCall "submariner/east" "169.254.1.1",
          ⟨"submariner/east", .err "insufficient IPs available for allocation"⟩]⟩ :=
  rfl

/-- C6, amended. On Create, when some pool call of the pass fails, `process` returns
`requeue = true` and the object chosen by change detection, as on success: nil exactly when
the failed pass left the status equal to the one on entry, and otherwise the input request
carrying the status of the failed pass, that is the addresses obtained before the failing
call and the conditions after the failure condition was submitted. -/
theorem process_failure_result {σ : Type} (env : Env σ) (g : GlobalEgressIP)
    (numRequeues : Int) (pool : σ) (r : ProcessOutcome σ)
    (h : process env g numRequeues .Create pool = .ok r) (hf : someCallFailed r.calls) :
    r.requeue = true ∧
    (r.ret = none ↔ r.obj.Status = g.Status) ∧
    (r.obj.Status ≠ g.Status → r.ret = some r.obj) ∧
    r.obj = { g with Status := r.obj.Status } ∧
    ∃ (ips : List String) (e : String),
      r.calls = ips.map (okCall (env.MetaNamespaceKeyFunc g)) ++
        [⟨env.MetaNamespaceKeyFunc g, .err e⟩] ∧
      r.obj.Status = tryAppendStatusCondition env { g.Status with AllocatedIPs := ips }
        (allocationFailedCondition (defaultNumberOfIPs env g.Spec.NumberOfIPs) e) := by
  obtain ⟨out, hA, rfl⟩ := process_create_ok env g numRequeues pool r h
  have hreq : out.requeue = true := (allocateIPs_requeue env _ _ pool g.Status out hA).1.mpr hf
  refine ⟨hreq, ?_, ?_, rfl, ?_⟩
  · unfold checkGlobalEgressIPStatusChanged
    by_cases heq : g.Status = out.status
    · rw [if_pos heq]
      exact ⟨fun _ => heq.symm, fun _ => rfl⟩
    · rw [if_neg heq]
      exact ⟨fun h1 => (by cases h1), fun h1 => absurd h1.symm heq⟩
  · intro hne
    simp only [checkGlobalEgressIPStatusChanged]
    rw [if_neg (fun h1 => hne h1.symm)]
  · rcases allocateIPs_cases env _ _ pool g.Status out hA with
      ⟨-, rfl⟩ | ⟨-, ips, h1, -⟩ | ⟨-, ips, e, -, -, h3, h4⟩
    · cases hreq
    · rw [h1] at hreq
      cases hreq
    · exact ⟨ips, e, h3, h4⟩

/-- Witness for C6 amended: two addresses requested from a pool holding one. -/
theorem process_failure_result_witness :
    failedPassOutcome.requeue = true ∧
    (failedPassOutcome.ret = none ↔ failedPassOutcome.obj.Status = failedPassRequest.Status) ∧
    (failedPassOutcome.obj.Status ≠ failedPassRequest.Status →
      failedPassOutcome.ret = some failedPassOutcome.obj) ∧
    failedPassOutcome.obj = { failedPassRequest with Status := failedPassOutcome.obj.Status } ∧
    ∃ (ips : List String) (e : String),
      failedPassOutcome.calls =
        ips.map (okCall (exampleEnv.MetaNamespaceKeyFunc failedPassRequest)) ++
          [⟨exampleEnv.MetaNamespaceKeyFunc failedPassRequest, .err e⟩] ∧
      failedPassOutcome.obj.Status =
        tryAppendStatusCondition exampleEnv { failedPassRequest.Status with AllocatedIPs := ips }
          (allocationFailedCondition
            (defaultNumberOfIPs exampleEnv failedPassRequest.Spec.NumberOfIPs) e) :=
  process_failure_result exampleEnv failedPassRequest 0 ["169.254.1.1"] failedPassOutcome rfl
    ⟨⟨"submariner/east", .err "insufficient IPs available for allocation"⟩,
      List.mem_cons_of_mem _ (List.mem_singleton.mpr rfl), rfl⟩

/-- C7, the code at a failing input. Five addresses are requested through a pointer held at
address 824633802896 and the first pool call fails. The condition recorded has type
Allocated, status False and reason IPPoolAllocationFailed, and its message holds the text of
the error; but the `%d` verb received the pointer, so the number in the message is the
address and the requested count 5 does not occur in it. The condition built does not depend
on the count at all. -/
theorem allocationFailed_message_lacks_count :
    allocateIPs exampleEnv "submariner/east" (some ⟨824633802896, 5⟩) [] ⟨[], []⟩ =
      .ok ⟨true,
        ⟨[⟨"Allocated", .ConditionFalse, 0, 0, "IPPoolAllocationFailed",
            "Error allocating 824633802896 global IP(s) from the pool: insufficient IPs available for allocation"⟩],
          []⟩,
        [],
        [⟨"submariner/east", .err "insufficient IPs available for allocation"⟩]⟩ ∧
    containsText
      "Error allocating 824633802896 global IP(s) from the pool: insufficient IPs available for allocation"
      "insufficient IPs available for allocation" = true ∧
    containsText
      "Error allocating 824633802896 global IP(s) from the pool: insufficient IPs available for allocation"
      (fmtInt 5) = false ∧
    (∀ (addr : Nat) (count count2 : Int) (e : String),
      allocationFailedCondition ⟨addr, count⟩ e = allocationFailedCondition ⟨addr, count2⟩ e) :=
  ⟨rfl, by decide, by decide, fun _ _ _ _ => rfl⟩

/-- C8, the code at a failing input. One address is requested through a pointer held at
address 824633802896 and the pool call succeeds. The condition recorded has type Allocated and
status True; but the `%d` verb received the pointer, so the number in the message is the
address and the count 1 does not occur in it. The condition built does not depend on the count
at all. -/
theorem allocated_message_lacks_count :
    allocateIPs exampleEnv "submariner/east" (some ⟨824633802896, 1⟩) ["169.254.1.1"]
        ⟨[], []⟩ =
      .ok ⟨false,
        ⟨[⟨"Allocated", .ConditionTrue, 0, 0, "", "Allocated 824633802896 global IP(s)"⟩],
          ["169.254.1.1"]⟩,
        [],
        [⟨"submariner/east", .ok "169.254.1.1"⟩]⟩ ∧
    containsText "Allocated 824633802896 global IP(s)" (fmtInt 1) = false ∧
    (∀ (addr : Nat) (count count2 : Int),
      allocatedCondition ⟨addr, count⟩ = allocatedCondition ⟨addr, count2⟩) :=
  ⟨rfl, by decide, fun _ _ _ => rfl⟩

/-- C9, counterexample. Three addresses are requested from a pool holding one: the second
call fails and the pass leaves the one address obtained in `AllocatedIPs`, a list that is
neither empty nor of length three. -/
theorem allocateIPs_leaves_partial_list :
    allocateIPs exampleEnv "submariner/east" (some ⟨824633802896, 3⟩) ["169.254.1.1"]
        ⟨[], []⟩ =
      .ok ⟨true,
        ⟨[allocationFailedCondition ⟨824633802896, 3⟩
            "insufficient IPs available for allocation"], ["169.254.1.1"]⟩,
        [],
        [okCall "submariner/east" "169.254.1.1",
          ⟨"submariner/east", .err "insufficient IPs available for allocation"⟩]⟩ :=
  rfl

/-- C9, amended. After every pass of `allocateIPs` that returns, `AllocatedIPs` has length
exactly `N` when the flag is false; when the flag is true it holds the addresses returned by
the calls that preceded the failing one, in order, and these are fewer than `N`. A failed pass
never leaves a list of length `N`, and leaves the empty list only when its first call
fails. -/
theorem allocateIPs_allocated_length {σ : Type} (env : Env σ) (key : String)
    (numberOfIPs : Option IntPtr) (pool : σ) (status : GlobalEgressIPStatus)
    (out : AllocOutcome σ) (h : allocateIPs env key numberOfIPs pool status = .ok out) :
    (out.requeue = false →
      (out.status.AllocatedIPs.length : Int) = effectiveCount numberOfIPs) ∧
    (out.requeue = true →
      ∃ (ips : List String) (e : String),
        out.calls = ips.map (okCall key) ++ [⟨key, .err e⟩] ∧
        out.status.AllocatedIPs = ips ∧
        (out.status.AllocatedIPs.length : Int) < effectiveCount numberOfIPs ∧
        (out.status.AllocatedIPs = [] ↔ out.calls.length = 1)) := by
  refine ⟨(allocateIPs_requeue env key numberOfIPs pool status out h).2, fun hreq => ?_⟩
  rcases allocateIPs_cases env key numberOfIPs pool status out h with
    ⟨-, rfl⟩ | ⟨-, ips, h1, -⟩ | ⟨-, ips, e, -, h2, h3, h4⟩
  · cases hreq
  · rw [h1] at hreq
    cases hreq
  · have hips : out.status.AllocatedIPs = ips := by
      rw [h4, tryAppendStatusCondition_AllocatedIPs]
    refine ⟨ips, e, h3, hips, by rw [hips]; exact h2, ?_⟩
    rw [hips, h3]
    cases ips <;> simp

/-- Witness for C9 amended: three addresses requested from a pool holding one. -/
theorem allocateIPs_allocated_length_witness :
    (partialPassOutcome.requeue = false →
      (partialPassOutcome.status.AllocatedIPs.length : Int) =
        effectiveCount (some ⟨824633802896, 3⟩)) ∧
    (partialPassOutcome.requeue = true →
      ∃ (ips : List String) (e : String),
        partialPassOutcome.calls =
          ips.map (okCall "submariner/east") ++ [⟨"submariner/east", .err e⟩] ∧
        partialPassOutcome.status.AllocatedIPs = ips ∧
        (partialPassOutcome.status.AllocatedIPs.length : Int) <
          effectiveCount (some ⟨824633802896, 3⟩) ∧
        (partialPassOutcome.status.AllocatedIPs = [] ↔ partialPassOutcome.calls.length = 1)) :=
  allocateIPs_allocated_length exampleEnv "submariner/east" (some ⟨824633802896, 3⟩)
    ["169.254.1.1"] ⟨[], []⟩ partialPassOutcome rfl

/-- C10 (change detection on success). On Create with an effective desired count that `make`
accepts, that is between 0 and the capacity limit, `process` returns, and if no pool call of
the pass failed the flag is false, the object left behind is the input request with a new
status, and: when the count differs from the length of the previous `AllocatedIPs`, the
returned object is that request, carrying the addresses the pool returned (as many as the
count) and the conditions after the success condition was submitted; when they are equal, the
returned object is nil and the request is untouched. The returned object is non-nil exactly
when the status was changed. -/
theorem process_success_result {σ : Type} (env : Env σ) (g : GlobalEgressIP)
    (numRequeues : Int) (pool : σ) (h0 : 0 ≤ effectiveCount g.Spec.NumberOfIPs)
    (hmax : effectiveCount g.Spec.NumberOfIPs ≤ (env.maxSliceCap : Int)) :
    ∃ r : ProcessOutcome σ,
      process env g numRequeues .Create pool = .ok r ∧
      (¬ someCallFailed r.calls →
        r.requeue = false ∧
        r.obj = { g with Status := r.obj.Status } ∧
        (effectiveCount g.Spec.NumberOfIPs ≠ (g.Status.AllocatedIPs.length : Int) →
          r.ret = some r.obj ∧
          (r.obj.Status.AllocatedIPs.length : Int) = effectiveCount g.Spec.NumberOfIPs ∧
          ∃ ips : List String,
            allocateN env (env.MetaNamespaceKeyFunc g) (effectiveCount g.Spec.NumberOfIPs).toNat
              pool = some (ips, r.pool) ∧
            r.obj.Status = tryAppendStatusCondition env { g.Status with AllocatedIPs := ips }
              (allocatedCondition (defaultNumberOfIPs env g.Spec.NumberOfIPs))) ∧
        (effectiveCount g.Spec.NumberOfIPs = (g.Status.AllocatedIPs.length : Int) →
          r.ret = none ∧ r.obj = g ∧ r.calls = []) ∧
        (r.ret ≠ none ↔ r.obj.Status ≠ g.Status)) := by
  obtain ⟨out, hout⟩ :=
    allocateIPs_total env (env.MetaNamespaceKeyFunc g) g.Spec.NumberOfIPs pool g.Status h0 hmax
  refine ⟨_, by rw [process_create, hout], fun hnf => ?_⟩
  have hret : checkGlobalEgressIPStatusChanged g.Status out.status
      { g with Status := out.status } ≠ none ↔ out.status ≠ g.Status := by
    unfold checkGlobalEgressIPStatusChanged
    by_cases heq : g.Status = out.status
    · rw [if_pos heq]
      exact ⟨fun h1 => absurd rfl h1, fun h1 => absurd heq.symm h1⟩
    · rw [if_neg heq]
      exact ⟨fun _ h1 => heq h1.symm, fun _ h1 => (by cases h1)⟩
  rcases allocateIPs_cases env _ _ pool g.Status out hout with
    ⟨heq, rfl⟩ | ⟨hne, ips, h1, h2, h3, h4, h5⟩ | ⟨-, ips, e, -, -, h3, -⟩
  · refine ⟨rfl, rfl, fun hne => absurd heq hne, fun _ => ⟨?_, rfl, rfl⟩, hret⟩
    simp [checkGlobalEgressIPStatusChanged]
  · have hlen : (out.status.AllocatedIPs.length : Int) = effectiveCount g.Spec.NumberOfIPs := by
      rw [h4, tryAppendStatusCondition_AllocatedIPs]
      exact h2
    have hchanged : g.Status ≠ out.status := by
      intro hst
      rw [← hst] at hlen
      exact hne hlen.symm
    refine ⟨h1, rfl, fun _ => ⟨?_, hlen, ips, h5, h4⟩, fun heq => absurd heq hne, hret⟩
    simp only [checkGlobalEgressIPStatusChanged]
    rw [if_neg hchanged]
  · exact absurd (h3 ▸ someCallFailed_append_err _ e _) hnf

/-- Witness for C10: two addresses requested from a pool holding two. -/
theorem process_success_result_witness :
    ∃ r : ProcessOutcome (List String),
      process exampleEnv (exampleRequest (some ⟨824633802896, 2⟩) ⟨[], []⟩) 0 .Create
        ["169.254.1.1", "169.254.1.2"] = .ok r ∧
      (¬ someCallFailed r.calls →
        r.requeue = false ∧
        r.obj = { exampleRequest (some ⟨824633802896, 2⟩) ⟨[], []⟩ with Status := r.obj.Status } ∧
        (effectiveCount (some ⟨824633802896, 2⟩) ≠ (([] : List String).length : Int) →
          r.ret = some r.obj ∧
          (r.obj.Status.AllocatedIPs.length : Int) = effectiveCount (some ⟨824633802896, 2⟩) ∧
          ∃ ips : List String,
            allocateN exampleEnv "submariner/east" (effectiveCount (some ⟨824633802896, 2⟩)).toNat
              ["169.254.1.1", "169.254.1.2"] = some (ips, r.pool) ∧
            r.obj.Status = tryAppendStatusCondition exampleEnv ⟨[], ips⟩
              (allocatedCondition ⟨824633802896, 2⟩)) ∧
        (effectiveCount (some ⟨824633802896, 2⟩) = (([] : List String).length : Int) →
          r.ret = none ∧ r.obj = exampleRequest (some ⟨824633802896, 2⟩) ⟨[], []⟩ ∧
            r.calls = []) ∧
        (r.ret ≠ none ↔ r.obj.Status ≠ ⟨[], []⟩)) :=
  process_success_result exampleEnv (exampleRequest (some ⟨824633802896, 2⟩) ⟨[], []⟩) 0
    ["169.254.1.1", "169.254.1.2"] (by decide) (by decide)

/-- C11 (Update and Delete are no-ops). For every request, requeue count and pool state,
`process` with operation Update or Delete returns `(nil, false)`, issues no pool call, and
leaves the request, its status included, and the pool as they were. -/
theorem process_update_delete_noop {σ : Type} (env : Env σ) (g : GlobalEgressIP)
    (numRequeues : Int) (pool : σ) :
    process env g numRequeues .Update pool = .ok ⟨none, false, g, pool, []⟩ ∧
    process env g numRequeues .Delete pool = .ok ⟨none, false, g, pool, []⟩ :=
  ⟨rfl, rfl⟩

/-- C12 (condition monotonicity), against the spec-modelled `TryAppendCondition`. If the
status holds at most one condition of type Allocated, then after any pass of `allocateIPs`
that returns it still holds at most one, and the conditions of the other types are as they
were. A pass that has work to do leaves exactly one condition of type Allocated, the one it
submitted: its status is False when the pass asks for a requeue and True otherwise, and the
list grew by one entry only if there was no condition of that type before. -/
theorem allocateIPs_single_allocated_condition {σ : Type} (env : Env σ)
    (henv : env.TryAppendCondition = TryAppendCondition) (key : String)
    (numberOfIPs : Option IntPtr) (pool : σ) (status : GlobalEgressIPStatus)
    (out : AllocOutcome σ)
    (hone : (allocatedConditions status.Conditions).length ≤ 1)
    (h : allocateIPs env key numberOfIPs pool status = .ok out) :
    (allocatedConditions out.status.Conditions).length ≤ 1 ∧
    otherConditions out.status.Conditions = otherConditions status.Conditions ∧
    (effectiveCount numberOfIPs ≠ (status.AllocatedIPs.length : Int) →
      ∃ c : Condition,
        allocatedConditions out.status.Conditions = [c] ∧
        c.Status = (if out.requeue then .ConditionFalse else .ConditionTrue) ∧
        out.status.Conditions.length =
          status.Conditions.length + (1 - (allocatedConditions status.Conditions).length)) := by
  rcases allocateIPs_cases env key numberOfIPs pool status out h with
    ⟨heq, rfl⟩ | ⟨-, ips, h1, -, -, h4, -⟩ | ⟨-, ips, e, h1, -, -, h4⟩
  · exact ⟨hone, rfl, fun hne => absurd heq hne⟩
  · obtain ⟨a1, a2, a3⟩ := tryAppendStatusCondition_allocated env henv
      { status with AllocatedIPs := ips }
      (allocatedCondition (defaultNumberOfIPs env numberOfIPs)) rfl hone
    rw [← h4] at a1 a2 a3
    refine ⟨by rw [a1]; exact Nat.le_refl 1, a2, fun _ => ⟨_, a1, ?_, a3⟩⟩
    rw [h1]
    rfl
  · obtain ⟨a1, a2, a3⟩ := tryAppendStatusCondition_allocated env henv
      { status with AllocatedIPs := ips }
      (allocationFailedCondition (defaultNumberOfIPs env numberOfIPs) e) rfl hone
    rw [← h4] at a1 a2 a3
    refine ⟨by rw [a1]; exact Nat.le_refl 1, a2, fun _ => ⟨_, a1, ?_, a3⟩⟩
    rw [h1]
    rfl

/-- Witness for C12: a pass that failed left its failure condition; the next pass succeeds
and leaves a single condition of type Allocated, with status True. -/
theorem allocateIPs_single_allocated_condition_witness :
    (allocatedConditions retryPassOutcome.status.Conditions).length ≤ 1 ∧
    otherConditions retryPassOutcome.status.Conditions =
      otherConditions [allocationFailedCondition ⟨824633802896, 1⟩
        "insufficient IPs available for allocation"] ∧
    (effectiveCount (some ⟨824633802896, 1⟩) ≠ (([] : List String).length : Int) →
      ∃ c : Condition,
        allocatedConditions retryPassOutcome.status.Conditions = [c] ∧
        c.Status = (if retryPassOutcome.requeue then .ConditionFalse else .ConditionTrue) ∧
        retryPassOutcome.status.Conditions.length =
          [allocationFailedCondition ⟨824633802896, 1⟩
            "insufficient IPs available for allocation"].length +
          (1 - (allocatedConditions [allocationFailedCondition ⟨824633802896, 1⟩
            "insufficient IPs available for allocation"]).length)) :=
  allocateIPs_single_allocated_condition exampleEnv rfl "submariner/east"
    (some ⟨824633802896, 1⟩) ["169.254.1.1"]
    ⟨[allocationFailedCondition ⟨824633802896, 1⟩ "insufficient IPs available for allocation"],
      []⟩
    retryPassOutcome (by decide) rfl

/-- C13 (failure is never mistaken for success). After `allocateIPs` returns, for an effective
desired count `N`, `requeue = false` implies that `AllocatedIPs` has length `N` while
`requeue = true` implies that it has fewer than `N` entries. Hence after a failed pass the
length test at the head of the next pass cannot match: a next pass for the same count issues
at least one pool call. The pass returns for every non-negative `N` that does not exceed the
largest capacity `make` accepts. -/
theorem allocateIPs_requeue_tells_length {σ : Type} (env : Env σ) (key : String)
    (numberOfIPs : Option IntPtr) (pool : σ) (status : GlobalEgressIPStatus) :
    (∀ out : AllocOutcome σ, allocateIPs env key numberOfIPs pool status = .ok out →
      (out.requeue = false →
        (out.status.AllocatedIPs.length : Int) = effectiveCount numberOfIPs) ∧
      (out.requeue = true →
        (out.status.AllocatedIPs.length : Int) < effectiveCount numberOfIPs) ∧
      (out.requeue = true →
        ∀ (key2 : String) (pool2 : σ) (out2 : AllocOutcome σ),
          allocateIPs env key2 numberOfIPs pool2 out.status = .ok out2 → out2.calls ≠ [])) ∧
    (0 ≤ effectiveCount numberOfIPs →
      effectiveCount numberOfIPs ≤ (env.maxSliceCap : Int) →
      ∃ out : AllocOutcome σ, allocateIPs env key numberOfIPs pool status = .ok out) := by
  refine ⟨fun out hout => ?_, allocateIPs_total env key numberOfIPs pool status⟩
  have hlt : out.requeue = true →
      (out.status.AllocatedIPs.length : Int) < effectiveCount numberOfIPs := by
    intro hreq
    rcases allocateIPs_cases env key numberOfIPs pool status out hout with
      ⟨-, rfl⟩ | ⟨-, ips, h1, -⟩ | ⟨-, ips, e, -, h2, -, h4⟩
    · cases hreq
    · rw [h1] at hreq
      cases hreq
    · rw [h4, tryAppendStatusCondition_AllocatedIPs]
      exact h2
  refine ⟨(allocateIPs_requeue env key numberOfIPs pool status out hout).2, hlt,
    fun hreq key2 pool2 out2 h2 => ?_⟩
  have hlen := hlt hreq
  rcases allocateIPs_cases env key2 numberOfIPs pool2 out.status out2 h2 with
    ⟨heq, -⟩ | ⟨-, ips, -, a2, a3, -⟩ | ⟨-, ips, e, -, -, a3, -⟩
  · omega
  · rw [a3]
    intro hnil
    have : ips = [] := by simpa using hnil
    rw [this] at a2
    simp only [List.length_nil, Nat.cast_zero] at a2
    omega
  · rw [a3]
    simp

/-- Witness for C13: three addresses requested from a pool holding one; the pass returns with
`requeue = true` and one address. -/
theorem allocateIPs_requeue_tells_length_witness :
    ((partialPassOutcome.requeue = false →
        (partialPassOutcome.status.AllocatedIPs.length : Int) =
          effectiveCount (some ⟨824633802896, 3⟩)) ∧
      (partialPassOutcome.requeue = true →
        (partialPassOutcome.status.AllocatedIPs.length : Int) <
          effectiveCount (some ⟨824633802896, 3⟩)) ∧
      (partialPassOutcome.requeue = true →
        ∀ (key2 : String) (pool2 : List String) (out2 : AllocOutcome (List String)),
          allocateIPs exampleEnv key2 (some ⟨824633802896, 3⟩) pool2
            partialPassOutcome.status = .ok out2 →
          out2.calls ≠ [])) ∧
    (∃ out : AllocOutcome (List String),
      allocateIPs exampleEnv "submariner/east" (some ⟨824633802896, 3⟩) ["169.254.1.1"]
        ⟨[], []⟩ = .ok out) :=
  ⟨(allocateIPs_requeue_tells_length exampleEnv "submariner/east" (some ⟨824633802896, 3⟩)
      ["169.254.1.1"] ⟨[], []⟩).1 partialPassOutcome rfl,
    (allocateIPs_requeue_tells_length exampleEnv "submariner/east" (some ⟨824633802896, 3⟩)
      ["169.254.1.1"] ⟨[], []⟩).2 (by decide) (by decide)⟩

/-- C14 (bounded pool calls, stop at first failure). A pass of `allocateIPs` with effective
desired count `N` issues at most `N` pool calls, each with the key it was given. If a call of
the pass fails, say the call number `k + 1`, then it is the last call of the pass, none of the
`k` calls before it failed, and `AllocatedIPs` holds exactly the `k` addresses those calls
returned, in call order. -/
theorem allocateIPs_calls_bounded {σ : Type} (env : Env σ) (key : String)
    (numberOfIPs : Option IntPtr) (pool : σ) (status : GlobalEgressIPStatus)
    (out : AllocOutcome σ) (h : allocateIPs env key numberOfIPs pool status = .ok out) :
    (out.calls.length : Int) ≤ effectiveCount numberOfIPs ∧
    (∀ c ∈ out.calls, c.key = key) ∧
    (∀ (k : Nat) (c : PoolCall), out.calls[k]? = some c → c.failed = true →
      out.calls.length = k + 1 ∧
      (∀ c1 ∈ out.calls.take k, c1.failed = false) ∧
      out.status.AllocatedIPs = returnedIPs (out.calls.take k) ∧
      out.status.AllocatedIPs.length = k) := by
  rcases allocateIPs_cases env key numberOfIPs pool status out h with
    ⟨heq, rfl⟩ | ⟨-, ips, -, h2, h3, -, -⟩ | ⟨-, ips, e, -, h2, h3, h4⟩
  · refine ⟨?_, fun c hc => ?_, fun k c hk _ => ?_⟩
    · simp only [List.length_nil, Nat.cast_zero]
      omega
    · cases hc
    · simp at hk
  · refine ⟨?_, fun c hc => ?_, fun k c hk hf => ?_⟩
    · rw [h3, List.length_map]
      omega
    · rw [h3] at hc
      exact (key_of_mem_map_okCall key ips c hc).1
    · rw [h3] at hk
      have hmem : c ∈ ips.map (okCall key) := List.getElem?_mem hk
      rw [(key_of_mem_map_okCall key ips c hmem).2] at hf
      cases hf
  · have hips : out.status.AllocatedIPs = ips := by
      rw [h4, tryAppendStatusCondition_AllocatedIPs]
    refine ⟨?_, fun c hc => ?_, fun k c hk hf => ?_⟩
    · rw [h3]
      simp only [List.length_append, List.length_map, List.length_singleton, Nat.cast_add,
        Nat.cast_one]
      omega
    · rw [h3] at hc
      rcases List.mem_append.mp hc with hc1 | hc1
      · exact (key_of_mem_map_okCall key ips c hc1).1
      · rw [List.mem_singleton.mp hc1]
    · rw [h3] at hk
      have hkeq : k = ips.length := failed_call_is_last key e ips k c hk hf
      have htake : out.calls.take k = ips.map (okCall key) := by
        rw [h3, hkeq]
        simp
      refine ⟨by rw [h3, hkeq]; simp, fun c1 hc1 => ?_, ?_, by rw [hips, hkeq]⟩
      · rw [htake] at hc1
        exact (key_of_mem_map_okCall key ips c1 hc1).2
      · rw [htake, returnedIPs_map_okCall, hips]

/-- Witness for C14: three addresses requested from a pool holding one; the second call
fails and is the last. -/
theorem allocateIPs_calls_bounded_witness :
    (partialPassOutcome.calls.length : Int) ≤ effectiveCount (some ⟨824633802896, 3⟩) ∧
    (∀ c ∈ partialPassOutcome.calls, c.key = "submariner/east") ∧
    (∀ (k : Nat) (c : PoolCall), partialPassOutcome.calls[k]? = some c → c.failed = true →
      partialPassOutcome.calls.length = k + 1 ∧
      (∀ c1 ∈ partialPassOutcome.calls.take k, c1.failed = false) ∧
      partialPassOutcome.status.AllocatedIPs = returnedIPs (partialPassOutcome.calls.take k) ∧
      partialPassOutcome.status.AllocatedIPs.length = k) :=
  allocateIPs_calls_bounded exampleEnv "submariner/east" (some ⟨824633802896, 3⟩)
    ["169.254.1.1"] ⟨[], []⟩ partialPassOutcome rfl

/-- C15, counterexample. The count is 9223372036854775807, which is not negative, the status
is empty and the capacity limit is the one of linux/amd64, `2 ^ 44`: `allocateIPs` does not
complete, it faults in `make` with cap out of range. -/
theorem allocateIPs_huge_count_faults :
    (0 : Int) ≤ effectiveCount (some ⟨824633802896, 9223372036854775807⟩) ∧
    allocateIPs exampleEnv "submariner/east" (some ⟨824633802896, 9223372036854775807⟩)
      ["169.254.1.1"] ⟨[], []⟩ = .error .makesliceCapOutOfRange :=
  ⟨by decide, rfl⟩

/-- C15, amended. `allocateIPs` returns, rather than faulting, exactly when the effective
desired count equals the length of `AllocatedIPs`, in which case it returns before `make`,
or lies between 0 and the largest capacity `make` accepts. For a negative count the length
test cannot match and the pass faults in `make`; for a count above that capacity which
differs from the length the pass faults in the same way. In both cases the fault is the
result whatever the pool and its `Allocate` are, the loop not being reached. -/
theorem allocateIPs_total_iff {σ : Type} (env : Env σ) (key : String)
    (numberOfIPs : Option IntPtr) (pool : σ) (status : GlobalEgressIPStatus) :
    ((∃ out, allocateIPs env key numberOfIPs pool status = .ok out) ↔
      (effectiveCount numberOfIPs = (status.AllocatedIPs.length : Int) ∨
        (0 ≤ effectiveCount numberOfIPs ∧
          effectiveCount numberOfIPs ≤ (env.maxSliceCap : Int)))) ∧
    (effectiveCount numberOfIPs < 0 →
      effectiveCount numberOfIPs ≠ (status.AllocatedIPs.length : Int) ∧
      allocateIPs env key numberOfIPs pool status = .error .makesliceCapOutOfRange ∧
      ∀ (τ : Type) (env2 : Env τ) (key2 : String) (pool2 : τ),
        allocateIPs env2 key2 numberOfIPs pool2 status = .error .makesliceCapOutOfRange) ∧
    ((env.maxSliceCap : Int) < effectiveCount numberOfIPs →
      effectiveCount numberOfIPs ≠ (status.AllocatedIPs.length : Int) →
      allocateIPs env key numberOfIPs pool status = .error .makesliceCapOutOfRange ∧
      ∀ (τ : Type) (env2 : Env τ) (key2 : String) (pool2 : τ),
        env2.maxSliceCap = env.maxSliceCap →
        allocateIPs env2 key2 numberOfIPs pool2 status = .error .makesliceCapOutOfRange) := by
  refine ⟨⟨fun hret => ?_, fun hdom => ?_⟩, fun hneg => ?_, fun hbig hne => ?_⟩
  · by_contra hcon
    obtain ⟨out, hout⟩ := hret
    have hne : effectiveCount numberOfIPs ≠ (status.AllocatedIPs.length : Int) :=
      fun h => hcon (Or.inl h)
    by_cases hneg : effectiveCount numberOfIPs < 0
    · rw [allocateIPs_negative env key numberOfIPs pool status hneg] at hout
      cases hout
    · have hbig : (env.maxSliceCap : Int) < effectiveCount numberOfIPs := by
        by_contra hle
        exact hcon (Or.inr ⟨by omega, by omega⟩)
      rw [allocateIPs_too_large env key numberOfIPs pool status hne hbig] at hout
      cases hout
  · rcases hdom with heq | ⟨h0, hmax⟩
    · exact ⟨_, allocateIPs_satisfied env key numberOfIPs pool status heq⟩
    · exact allocateIPs_total env key numberOfIPs pool status h0 hmax
  · exact ⟨by omega, allocateIPs_negative env key numberOfIPs pool status hneg,
      fun τ env2 key2 pool2 => allocateIPs_negative env2 key2 numberOfIPs pool2 status hneg⟩
  · exact ⟨allocateIPs_too_large env key numberOfIPs pool status hne hbig,
      fun τ env2 key2 pool2 hcap =>
        allocateIPs_too_large env2 key2 numberOfIPs pool2 status hne (hcap ▸ hbig)⟩

/-- Witness for C15 amended: the count -1. -/
theorem allocateIPs_total_iff_witness :
    effectiveCount (some ⟨824633802896, -1⟩) ≠ (([] : List String).length : Int) ∧
    allocateIPs exampleEnv "submariner/east" (some ⟨824633802896, -1⟩) ["169.254.1.1"]
      ⟨[], []⟩ = .error .makesliceCapOutOfRange ∧
    ∀ (τ : Type) (env2 : Env τ) (key2 : String) (pool2 : τ),
      allocateIPs env2 key2 (some ⟨824633802896, -1⟩) pool2 ⟨[], []⟩ =
        .error .makesliceCapOutOfRange :=
  (allocateIPs_total_iff exampleEnv "submariner/east" (some ⟨824633802896, -1⟩)
    ["169.254.1.1"] ⟨[], []⟩).2.1 (by decide)

/-- C16 (frame of the transform). Whatever the operation kind and the requeue count, the
request left by `process` has the namespace, the name and the spec of the input request: it is
the input request with at most `Status.Conditions` and `Status.AllocatedIPs` changed. A
returned object that is not nil is that request. -/
theorem process_frame {σ : Type} (env : Env σ) (g : GlobalEgressIP) (numRequeues : Int)
    (op : Operation) (pool : σ) (r : ProcessOutcome σ)
    (h : process env g numRequeues op pool = .ok r) :
    r.obj.Namespace = g.Namespace ∧ r.obj.Name = g.Name ∧ r.obj.Spec = g.Spec ∧
    r.obj = { g with Status := ⟨r.obj.Status.Conditions, r.obj.Status.AllocatedIPs⟩ } ∧
    (∀ o : GlobalEgressIP, r.ret = some o → o = r.obj) := by
  cases op with
  | Create =>
    obtain ⟨out, -, rfl⟩ := process_create_ok env g numRequeues pool r h
    refine ⟨rfl, rfl, rfl, rfl, fun o ho => ?_⟩
    simp only [checkGlobalEgressIPStatusChanged] at ho
    split at ho
    · cases ho
    · exact (Option.some.inj ho).symm
  | Update =>
    obtain rfl : (⟨none, false, g, pool, []⟩ : ProcessOutcome σ) = r := Except.ok.inj h
    exact ⟨rfl, rfl, rfl, rfl, fun o ho => by cases ho⟩
  | Delete =>
    obtain rfl : (⟨none, false, g, pool, []⟩ : ProcessOutcome σ) = r := Except.ok.inj h
    exact ⟨rfl, rfl, rfl, rfl, fun o ho => by cases ho⟩

/-- Witness for C16: the Create pass that obtains one of the two addresses it wants. -/
theorem process_frame_witness :
    failedPassOutcome.obj.Namespace = failedPassRequest.Namespace ∧
    failedPassOutcome.obj.Name = failedPassRequest.Name ∧
    failedPassOutcome.obj.Spec = failedPassRequest.Spec ∧
    failedPassOutcome.obj =
      { failedPassRequest with
        Status := ⟨failedPassOutcome.obj.Status.Conditions,
          failedPassOutcome.obj.Status.AllocatedIPs⟩ } ∧
    (∀ o : GlobalEgressIP, failedPassOutcome.ret = some o → o = failedPassOutcome.obj) :=
  process_frame exampleEnv failedPassRequest 0 .Create ["169.254.1.1"] failedPassOutcome rfl

/-- C17 (no retry limit). For every operation kind the whole outcome of `process`, that is
the returned object, the flag, the request and the pool left behind and the pool calls, or the
fault, is the same for every requeue count. In particular, against a pool that answers every
call with an error, for a request that wants at least one address and does not hold as many
as it wants, every one of its consecutive Create passes that returns asks for a requeue,
whatever requeue counts the passes are given; and every one of them does return when the count
does not exceed the largest capacity `make` accepts. -/
theorem process_ignores_numRequeues {σ : Type} (env : Env σ) (g : GlobalEgressIP)
    (op : Operation) (pool : σ) :
    (∀ n1 n2 : Int, process env g n1 op pool = process env g n2 op pool) ∧
    ((∀ (p : σ) (k : String), ∃ (e : String) (p1 : σ), env.Allocate p k = (.err e, p1)) →
      1 ≤ effectiveCount g.Spec.NumberOfIPs →
      effectiveCount g.Spec.NumberOfIPs ≠ (g.Status.AllocatedIPs.length : Int) →
      ∀ (numRequeues : Nat → Int) (k : Nat),
        (∀ r : ProcessOutcome σ,
          createPasses env numRequeues k g pool = .ok r → r.requeue = true) ∧
        (effectiveCount g.Spec.NumberOfIPs ≤ (env.maxSliceCap : Int) →
          ∃ r : ProcessOutcome σ,
            createPasses env numRequeues k g pool = .ok r ∧ r.requeue = true)) := by
  refine ⟨fun n1 n2 => rfl, fun hfail h1 hne numRequeues k => ⟨fun r hr => ?_, fun hmax => ?_⟩⟩
  · by_cases hmax : effectiveCount g.Spec.NumberOfIPs ≤ (env.maxSliceCap : Int)
    · obtain ⟨r2, hr2, hq, -⟩ :=
        createPasses_requeue_of_failing_pool env hfail g pool h1 hmax hne numRequeues k
      rw [hr2] at hr
      rw [← Except.ok.inj hr]
      exact hq
    · rw [createPasses_too_large env g pool (by omega) hne numRequeues k] at hr
      cases hr
  · obtain ⟨r, hr, hq, -⟩ :=
      createPasses_requeue_of_failing_pool env hfail g pool h1 hmax hne numRequeues k
    exact ⟨r, hr, hq⟩

/-- Witness for C17: the fourth consecutive pass of a request that wants two addresses from
a pool that always fails, the passes being given the requeue counts 0, 1, 2 and 3. -/
theorem process_ignores_numRequeues_witness :
    ∃ r : ProcessOutcome Unit,
      createPasses exhaustedEnv (fun i => (i : Int)) 3 failedPassRequest () = .ok r ∧
      r.requeue = true :=
  ((process_ignores_numRequeues exhaustedEnv failedPassRequest .Create ()).2
    (fun p _ => ⟨"insufficient IPs available for allocation", p, rfl⟩) (by decide) (by decide)
    (fun i => (i : Int)) 3).2 (by decide)

end Ipam
